import Mathlib

/-!
Verification of the caseevo phone-case configurator.

The development shallowly embeds the client-side image compositing and
configuration pipeline of the design configurator
(src/app/configure/design/DesignConfigurator.tsx), the upload route handler
(ourFileRouter.imageUploader), and the two price computations
(DesignPreview and createCheckoutSession), and proves the specified
properties about them.

Coordinates and sizes delivered by the browser layout engine are modelled
as rational numbers; byte values as natural numbers below 256.
-/

/-! ## Geometry: rectangles, positions, dimensions -/

/-- Result of getBoundingClientRect for a rendered element. -/
structure Rect where
  left : ℚ
  top : ℚ
  width : ℚ
  height : ℚ
deriving DecidableEq

/-- Top-left offset of the draggable image frame (renderedPosition). -/
structure Pos where
  x : ℚ
  y : ℚ
deriving DecidableEq

/-- On-screen size of the draggable image frame (renderedDimensions). -/
structure Dims where
  width : ℚ
  height : ℚ
deriving DecidableEq

/-! ## Coordinate geometry resolver and canvas allocation

The function exportCanvas is translated from saveConfiguration in
DesignConfigurator.tsx, lines 137-172: it reads the bounding rectangles of
the phone-case element (phoneCaseRef) and of the containing viewport
(containerRef), computes the offset correction, allocates the off-screen
canvas at the case rectangle size, and draws the user image at the
corrected position with the current rendered dimensions. -/

/-- Record of the canvas operations performed by one export run: the size
the canvas is allocated with (the canvas width and height attributes hold
unsigned long values), and the destination rectangle passed to drawImage
for the source image (plain JS numbers, no coercion). -/
structure CanvasOps where
  canvasWidth : ℤ
  canvasHeight : ℤ
  drawX : ℚ
  drawY : ℚ
  drawWidth : ℚ
  drawHeight : ℚ
deriving DecidableEq

/-- Models the WebIDL unsigned long conversion that the canvas width and
height setters apply to a JS number: truncation toward zero followed by
reduction modulo 2 to the 32. -/
def jsUnsignedLong (q : ℚ) : ℤ :=
  (if 0 ≤ q then ⌊q⌋ else -⌊-q⌋) % 2 ^ 32

/-- Translated from saveConfiguration (DesignConfigurator.tsx 137-172):
leftOffset and topOffset are the silhouette-minus-viewport offsets, the
crop origin is the placement position minus those offsets, the canvas
width and height attributes are assigned the case rectangle size (the
setters coerce the fractional rect sizes to unsigned long), and the image
is drawn at the corrected origin with the current rendered dimensions
(drawImage takes uncoerced doubles). -/
def exportCanvas (phoneCase container : Rect) (position : Pos) (dims : Dims) :
    CanvasOps :=
  let leftOffset := phoneCase.left - container.left
  let topOffset := phoneCase.top - container.top
  let actualX := position.x - leftOffset
  let actualY := position.y - topOffset
  { canvasWidth := jsUnsignedLong phoneCase.width
    canvasHeight := jsUnsignedLong phoneCase.height
    drawX := actualX
    drawY := actualY
    drawWidth := dims.width
    drawHeight := dims.height }

/-! ## Placement state: initial value and event handlers -/

/-- Transient UI state of the draggable image frame. -/
structure PlacementState where
  dims : Dims
  pos : Pos
deriving DecidableEq

/-- Translated from the initial useState values (DesignConfigurator.tsx
115-124) and the Rnd default (270-276): dimensions are one quarter of the
native image dimensions, position is the fixed offset x = 150, y = 205. -/
def initialState (imgWidth imgHeight : ℚ) : PlacementState :=
  { dims := { width := imgWidth / 4, height := imgHeight / 4 }
    pos := { x := 150, y := 205 } }

/-- Events delivered by the drag and resize interaction: onDragStop
carries a new position, onResizeStop carries the new CSS pixel size of the
element (possibly fractional) and the new position. -/
inductive PlacementEvent where
  | drag (x y : ℚ)
  | resize (w h : ℚ) (x y : ℚ)
deriving DecidableEq

/-- Models the JavaScript parseInt applied to a decimal numeral string:
truncation toward zero. The onResizeStop handler applies it to the CSS
size strings of the resized element. -/
def jsParseInt (q : ℚ) : ℤ :=
  if 0 ≤ q then ⌊q⌋ else -⌊-q⌋

/-- Translated from the Rnd onResizeStop and onDragStop handlers
(DesignConfigurator.tsx 279-291): drag replaces the position and keeps the
dimensions; resize stores the parseInt-truncated width and height and the
new position. -/
def applyEvent (s : PlacementState) : PlacementEvent → PlacementState
  | .drag x y => { s with pos := { x := x, y := y } }
  | .resize w h x y =>
      { dims := { width := (jsParseInt w : ℚ), height := (jsParseInt h : ℚ) }
        pos := { x := x, y := y } }

/-- Folds a sequence of interaction events over a placement state. -/
def applyEvents (s : PlacementState) (es : List PlacementEvent) : PlacementState :=
  es.foldl applyEvent s

/-- Width-to-height quotient of the current placement dimensions. -/
def aspectOf (s : PlacementState) : ℚ :=
  s.dims.width / s.dims.height

/-- Validity of an event as produced by the interaction surface: the Rnd
component is configured with an aspect lock, so a resize delivers a
positive height and a width equal to the locked aspect times the height;
fractional CSS pixel sizes are allowed. -/
def eventLocked (aspect : ℚ) : PlacementEvent → Prop
  | .drag _ _ => True
  | .resize w h _ _ => 0 < h ∧ w = aspect * h

/-- Validity of an event restricted to whole-pixel resizes: as
eventLocked, and in addition the delivered width and height are integers
(rational denominator one). -/
def eventLockedWhole (aspect : ℚ) : PlacementEvent → Prop
  | .drag _ _ => True
  | .resize w h _ _ => 0 < h ∧ w = aspect * h ∧ w.den = 1 ∧ h.den = 1

/-- C1: the resolved crop origin is the placement position minus the
silhouette-minus-viewport offset, for every position and every pair of
measured rectangles; at viewport (0, 0), silhouette left 40 top 60 and
position (150, 205) the origin is (110, 145). -/
theorem crop_origin_offset_correct (position : Pos) (phoneCase container : Rect)
    (dims : Dims) :
    ((exportCanvas phoneCase container position dims).drawX
        = position.x - (phoneCase.left - container.left)
      ∧ (exportCanvas phoneCase container position dims).drawY
        = position.y - (phoneCase.top - container.top))
    ∧ (exportCanvas { left := 40, top := 60, width := 240, height := 490 }
          { left := 0, top := 0, width := 896, height := 600 }
          { x := 150, y := 205 } dims).drawX = 110
    ∧ (exportCanvas { left := 40, top := 60, width := 240, height := 490 }
          { left := 0, top := 0, width := 896, height := 600 }
          { x := 150, y := 205 } dims).drawY = 145 := by
  refine ⟨⟨rfl, rfl⟩, ?_, ?_⟩ <;> norm_num [exportCanvas]

/-- The unsigned long coercion is the identity on whole nonnegative
rationals below 2 to the 32. -/
theorem jsUnsignedLong_whole (q : ℚ) (h0 : 0 ≤ q) (hden : q.den = 1)
    (hlt : q < 2 ^ 32) : ((jsUnsignedLong q : ℤ) : ℚ) = q := by
  have hq : ((q.num : ℚ)) = q := Rat.coe_int_num_of_den_eq_one hden
  have hfl : ⌊q⌋ = q.num := hq ▸ Int.floor_intCast (α := ℚ) q.num
  have hnum0 : 0 ≤ q.num := Rat.num_nonneg.mpr h0
  have hnumlt : q.num < 2 ^ 32 := by
    have hcast : ((q.num : ℚ)) < (((2 ^ 32 : ℤ) : ℚ)) := by
      rw [hq]
      push_cast
      exact hlt
    exact_mod_cast hcast
  unfold jsUnsignedLong
  rw [if_pos h0, hfl, Int.emod_eq_of_lt hnum0 hnumlt, hq]

/-- C4 counterexample: in the real layout the silhouette element is 240
CSS pixels wide at aspect 896 / 1831, so its rendered height measures
240 * 1831 / 896 = 27465 / 56 (about 490.45) pixels; the unsigned long
setter truncates the canvas height to 490, which is not the rendered
height. -/
theorem canvas_allocation_counterexample :
    (exportCanvas { left := 40, top := 60, width := 240, height := 27465 / 56 }
        { left := 0, top := 0, width := 896, height := 600 }
        { x := 150, y := 205 } { width := 500, height := 1000 }).canvasHeight
      = 490
    ∧ (((490 : ℤ) : ℚ)) ≠ 27465 / 56 := by
  constructor
  · simp only [exportCanvas, jsUnsignedLong]
    norm_num
  · norm_num

/-- C4 amended: the off-screen canvas is allocated with the silhouette
rendered width and height coerced through the canvas unsigned long
setters, equal to the rendered sizes exactly when those are whole pixel
values in range, and never dependent on the crop rectangle size; the
source image is drawn at the corrected origin with the placement current
width and height, uncoerced. -/
theorem export_canvas_allocation (position : Pos) (phoneCase container : Rect)
    (dims other : Dims) (hw0 : 0 ≤ phoneCase.width)
    (hwden : phoneCase.width.den = 1) (hwlt : phoneCase.width < 2 ^ 32)
    (hh0 : 0 ≤ phoneCase.height) (hhden : phoneCase.height.den = 1)
    (hhlt : phoneCase.height < 2 ^ 32) :
    (((exportCanvas phoneCase container position dims).canvasWidth : ℤ) : ℚ)
      = phoneCase.width
    ∧ (((exportCanvas phoneCase container position dims).canvasHeight : ℤ) : ℚ)
      = phoneCase.height
    ∧ (exportCanvas phoneCase container position dims).canvasWidth
        = (exportCanvas phoneCase container position other).canvasWidth
    ∧ (exportCanvas phoneCase container position dims).canvasHeight
        = (exportCanvas phoneCase container position other).canvasHeight
    ∧ (exportCanvas phoneCase container position dims).drawX
        = position.x - (phoneCase.left - container.left)
    ∧ (exportCanvas phoneCase container position dims).drawY
        = position.y - (phoneCase.top - container.top)
    ∧ (exportCanvas phoneCase container position dims).drawWidth = dims.width
    ∧ (exportCanvas phoneCase container position dims).drawHeight = dims.height :=
  ⟨jsUnsignedLong_whole phoneCase.width hw0 hwden hwlt,
    jsUnsignedLong_whole phoneCase.height hh0 hhden hhlt,
    rfl, rfl, rfl, rfl, rfl, rfl⟩

/-- C4 witness for the amended statement: a whole-pixel 240 by 490 case
rectangle inside the 896 by 600 viewport, with two different crop
rectangle sizes. -/
theorem export_canvas_allocation_witness :
    (0 : ℚ) ≤ 240 ∧ ((240 : ℚ)).den = 1 ∧ (240 : ℚ) < 2 ^ 32
    ∧ (0 : ℚ) ≤ 490 ∧ ((490 : ℚ)).den = 1 ∧ (490 : ℚ) < 2 ^ 32
    ∧ ((((exportCanvas { left := 40, top := 60, width := 240, height := 490 }
            { left := 0, top := 0, width := 896, height := 600 }
            { x := 150, y := 205 } { width := 500, height := 1000 }).canvasWidth
            : ℤ) : ℚ) = 240
      ∧ (((exportCanvas { left := 40, top := 60, width := 240, height := 490 }
            { left := 0, top := 0, width := 896, height := 600 }
            { x := 150, y := 205 } { width := 500, height := 1000 }).canvasHeight
            : ℤ) : ℚ) = 490
      ∧ (exportCanvas { left := 40, top := 60, width := 240, height := 490 }
            { left := 0, top := 0, width := 896, height := 600 }
            { x := 150, y := 205 } { width := 500, height := 1000 }).canvasWidth
          = (exportCanvas { left := 40, top := 60, width := 240, height := 490 }
              { left := 0, top := 0, width := 896, height := 600 }
              { x := 150, y := 205 } { width := 20, height := 30 }).canvasWidth
      ∧ (exportCanvas { left := 40, top := 60, width := 240, height := 490 }
            { left := 0, top := 0, width := 896, height := 600 }
            { x := 150, y := 205 } { width := 500, height := 1000 }).canvasHeight
          = (exportCanvas { left := 40, top := 60, width := 240, height := 490 }
              { left := 0, top := 0, width := 896, height := 600 }
              { x := 150, y := 205 } { width := 20, height := 30 }).canvasHeight
      ∧ (exportCanvas { left := 40, top := 60, width := 240, height := 490 }
            { left := 0, top := 0, width := 896, height := 600 }
            { x := 150, y := 205 } { width := 500, height := 1000 }).drawX
          = 150 - (40 - 0)
      ∧ (exportCanvas { left := 40, top := 60, width := 240, height := 490 }
            { left := 0, top := 0, width := 896, height := 600 }
            { x := 150, y := 205 } { width := 500, height := 1000 }).drawY
          = 205 - (60 - 0)
      ∧ (exportCanvas { left := 40, top := 60, width := 240, height := 490 }
            { left := 0, top := 0, width := 896, height := 600 }
            { x := 150, y := 205 } { width := 500, height := 1000 }).drawWidth
          = 500
      ∧ (exportCanvas { left := 40, top := 60, width := 240, height := 490 }
            { left := 0, top := 0, width := 896, height := 600 }
            { x := 150, y := 205 } { width := 500, height := 1000 }).drawHeight
          = 1000) :=
  ⟨by norm_num, by norm_num, by norm_num, by norm_num, by norm_num, by norm_num,
    export_canvas_allocation { x := 150, y := 205 }
      { left := 40, top := 60, width := 240, height := 490 }
      { left := 0, top := 0, width := 896, height := 600 }
      { width := 500, height := 1000 } { width := 20, height := 30 }
      (by norm_num) (by norm_num) (by norm_num)
      (by norm_num) (by norm_num) (by norm_num)⟩

/-- C5: the initial placement dimensions are one quarter of the native
image dimensions and the initial position is the fixed offset (150, 205);
for a 2000 by 4000 source the initial dimensions are 500 by 1000. -/
theorem initial_placement_default (w h : ℚ) :
    (initialState w h).dims = { width := w / 4, height := h / 4 }
    ∧ (initialState w h).pos = { x := 150, y := 205 }
    ∧ (initialState 2000 4000).dims = { width := 500, height := 1000 } := by
  refine ⟨rfl, rfl, ?_⟩
  simp only [initialState]
  norm_num

/-! ## Aspect lock: helper lemmas -/

/-- Truncation of an integer-valued rational is exact. -/
theorem jsParseInt_intCast (n : ℤ) : jsParseInt (n : ℚ) = n := by
  unfold jsParseInt
  rcases le_or_lt 0 ((n : ℚ)) with h | h
  · rw [if_pos h, Int.floor_intCast]
  · rw [if_neg (not_le.mpr h), ← Int.cast_neg, Int.floor_intCast, neg_neg]

/-- Truncation of a rational with denominator one is exact on the numerator. -/
theorem jsParseInt_den_one (q : ℚ) (h : q.den = 1) : jsParseInt q = q.num :=
  (Rat.coe_int_num_of_den_eq_one h) ▸ jsParseInt_intCast q.num

/-- A sequence of whole-pixel aspect-locked events preserves the dimension
quotient of the placement state. -/
theorem aspectOf_foldl (aspect : ℚ) (ha : 0 < aspect) :
    ∀ (es : List PlacementEvent) (s : PlacementState),
      (∀ e ∈ es, eventLockedWhole aspect e) → aspectOf s = aspect →
      aspectOf (es.foldl applyEvent s) = aspect
  | [], _, _, hs => hs
  | e :: rest, s, hes, hs => by
    have hrest : ∀ x ∈ rest, eventLockedWhole aspect x := fun x hx =>
      hes x (List.mem_cons_of_mem _ hx)
    refine aspectOf_foldl aspect ha rest (applyEvent s e) hrest ?_
    have he := hes e (List.mem_cons_self _ _)
    cases e with
    | drag x y => simpa only [applyEvent, aspectOf] using hs
    | resize w h x y =>
      obtain ⟨hpos, hw, hwden, hhden⟩ := he
      have hwq : ((w.num : ℚ)) = w := Rat.coe_int_num_of_den_eq_one hwden
      have hhq : ((h.num : ℚ)) = h := Rat.coe_int_num_of_den_eq_one hhden
      simp only [applyEvent, aspectOf]
      rw [jsParseInt_den_one w hwden, jsParseInt_den_one h hhden, hwq, hhq, hw]
      exact mul_div_cancel_right₀ aspect (ne_of_gt hpos)

/-- C6 counterexample: from a 3000 by 4000 source (aspect 3/4), a single
aspect-locked resize delivering the fractional CSS size 751 by 1001.333
leaves the stored dimension quotient at 751 / 1001, which differs from
3/4 by 1/4004, far beyond floating-point tolerance. -/
theorem aspect_claim_counterexample :
    eventLocked ((3000 : ℚ) / 4000) (PlacementEvent.resize 751 (3004 / 3) 0 0)
    ∧ aspectOf (applyEvents (initialState 3000 4000)
        [PlacementEvent.resize 751 (3004 / 3) 0 0]) = 751 / 1001
    ∧ ((751 : ℚ) / 1001 ≠ 3000 / 4000)
    ∧ |(751 : ℚ) / 1001 - 3000 / 4000| > 1 / 1000000 := by
  refine ⟨⟨by norm_num, by norm_num⟩, ?_, by norm_num, ?_⟩
  · simp only [applyEvents, List.foldl, applyEvent, aspectOf]
    norm_num [jsParseInt]
  · rw [show (751 : ℚ) / 1001 - 3000 / 4000 = 1 / 4004 by norm_num,
      abs_of_pos (by norm_num)]
    norm_num

/-- C6 amended: drag never changes the stored dimensions, and for every
sequence of aspect-locked events whose resizes deliver whole-pixel CSS
sizes, the stored dimension quotient stays exactly at the native aspect
of the source image. -/
theorem aspect_locked_whole_resizes (imgWidth imgHeight : ℚ)
    (hW : 0 < imgWidth) (hH : 0 < imgHeight) (es : List PlacementEvent)
    (hes : ∀ e ∈ es, eventLockedWhole (imgWidth / imgHeight) e) :
    aspectOf (applyEvents (initialState imgWidth imgHeight) es)
      = imgWidth / imgHeight
    ∧ ∀ (s : PlacementState) (x y : ℚ),
        (applyEvent s (PlacementEvent.drag x y)).dims = s.dims := by
  constructor
  · refine aspectOf_foldl _ (div_pos hW hH) es _ hes ?_
    have h4 : (4 : ℚ) ≠ 0 := by norm_num
    have hHne : imgHeight ≠ 0 := ne_of_gt hH
    simp only [aspectOf, initialState]
    rw [div_div_div_comm, div_self h4, div_one]
  · intro s x y
    rfl

/-! ## Submission pipeline

The mutation (DesignConfigurator.tsx 76-100) awaits
Promise.all of saveConfiguration() and the server action _saveConfig(args);
onError shows a failure toast, onSuccess navigates to the preview page.
Inside saveConfiguration (134-197) every thrown error is caught by the
try/catch, which shows its own toast and resolves the promise; the load of
the user image awaits a promise whose only handler is onload, so a load or
decode failure leaves that promise unsettled forever. -/

/-- Outcome of loading and decoding the source image in the browser:
either the load event fires, or the error event fires (network failure,
undecodable data, blocked cross-origin read). -/
inductive LoadOutcome where
  | ok
  | failed
deriving DecidableEq

/-- Environment of one export run: whether the measured elements are
mounted (the refs are non-null), the image load outcome, whether the
canvas serialization (toDataURL, blob and file construction) succeeds,
and whether the upload call resolves. -/
structure ExportEnv where
  refsMounted : Bool
  load : LoadOutcome
  exportOk : Bool
  uploadOk : Bool
deriving DecidableEq

/-- Observable ending of the saveConfiguration promise: it completes
normally, it completes after the catch block showed the per-export error
toast, or it never settles. -/
inductive ExportOutcome where
  | completed
  | errorToastShown
  | suspended
deriving DecidableEq

/-- Translated from saveConfiguration (DesignConfigurator.tsx 134-197):
a null ref throws inside the try and is caught (toast, promise resolves);
a failed image load never resolves the await because only onload is
wired (161-163); a throwing canvas serialization or a rejecting upload is
caught by the same catch block; otherwise the export completes. -/
def saveConfigurationRun (env : ExportEnv) : ExportOutcome :=
  if env.refsMounted = false then ExportOutcome.errorToastShown
  else
    match env.load with
    | LoadOutcome.failed => ExportOutcome.suspended
    | LoadOutcome.ok =>
        if env.exportOk = false then ExportOutcome.errorToastShown
        else if env.uploadOk = false then ExportOutcome.errorToastShown
        else ExportOutcome.completed

/-- The export run never writes the placement state: saveConfiguration
reads renderedPosition and renderedDimensions but calls neither setter. -/
def saveConfigurationFull (env : ExportEnv) (s : PlacementState) :
    ExportOutcome × PlacementState :=
  (saveConfigurationRun env, s)

/-- Result of one submission as observed by the user: navigation to the
preview page (onSuccess), the failure toast (onError), or a submission
that never settles. -/
inductive PipelineOutcome where
  | navigated
  | failureToast
  | pending
deriving DecidableEq

/-- Translated from the mutation (DesignConfigurator.tsx 76-100):
Promise.all rejects as soon as _saveConfig rejects (onError fires); if
_saveConfig resolves, the joint promise settles only when the export
promise settles, and it then resolves, because saveConfiguration swallows
every error it sees; onSuccess then navigates. -/
def saveConfigMutation (env : ExportEnv) (persistOk : Bool) : PipelineOutcome :=
  match saveConfigurationRun env, persistOk with
  | _, false => PipelineOutcome.failureToast
  | ExportOutcome.suspended, true => PipelineOutcome.pending
  | _, true => PipelineOutcome.navigated

/-- C2 counterexample: the canvas serialization throws, so the export
sub-operation fails with its own error toast, the persistence action
succeeds, and the pipeline still navigates forward. -/
theorem pipeline_counterexample :
    saveConfigurationRun
        { refsMounted := true, load := LoadOutcome.ok,
          exportOk := false, uploadOk := true }
      = ExportOutcome.errorToastShown
    ∧ saveConfigMutation
        { refsMounted := true, load := LoadOutcome.ok,
          exportOk := false, uploadOk := true } true
      = PipelineOutcome.navigated := by
  exact ⟨rfl, rfl⟩

/-- C2 amended: the submission navigates forward exactly when the
persistence action succeeds and the export step does not hang on an image
load failure; it reports the pipeline failure toast exactly when the
persistence action fails; failures thrown inside the export step are
caught there and never block navigation. -/
theorem pipeline_navigation_characterization (env : ExportEnv) (persistOk : Bool) :
    (saveConfigMutation env persistOk = PipelineOutcome.navigated
      ↔ (persistOk = true ∧ saveConfigurationRun env ≠ ExportOutcome.suspended))
    ∧ (saveConfigMutation env persistOk = PipelineOutcome.failureToast
      ↔ persistOk = false) := by
  rcases env with ⟨rm, l, eo, uo⟩
  cases persistOk <;> cases rm <;> cases l <;> cases eo <;> cases uo <;>
    simp [saveConfigMutation, saveConfigurationRun]

/-- C3: evaluates the export step at the failing input where the source
image fails to load or decode: the run suspends forever, which is neither
a completed export nor the recoverable error toast, and the placement
state is untouched. -/
theorem export_load_failure_hangs (s : PlacementState) :
    saveConfigurationFull
        { refsMounted := true, load := LoadOutcome.failed,
          exportOk := true, uploadOk := true } s
      = (ExportOutcome.suspended, s)
    ∧ ExportOutcome.suspended ≠ ExportOutcome.errorToastShown := by
  exact ⟨rfl, by decide⟩

/-! ## Upload route handler

The definitions below are translated from ourFileRouter.imageUploader
onUploadComplete: the create branch stores the uploaded file URL as
imageUrl with the decoded dimensions (defaulting through the JavaScript
or-operator to 500), the update branch attaches the uploaded file URL as
croppedImageUrl to the existing record; both branches return the id of
the affected configuration. The Prisma store is modelled as a list of
records keyed by id. -/

/-- A Configuration record as stored by Prisma. -/
structure Configuration where
  id : String
  imageUrl : String
  croppedImageUrl : Option String
  width : Nat
  height : Nat
  color : Option String
  model : Option String
  material : Option String
  finish : Option String
deriving DecidableEq

/-- Models the JavaScript or-operator applied to a possibly undefined
number and a default: undefined and 0 are falsy and select the default. -/
def jsOrNat (v : Option Nat) (d : Nat) : Nat :=
  match v with
  | none => d
  | some n => if n = 0 then d else n

/-- Translated from the create branch of onUploadComplete: a fresh record
with the uploaded file URL as imageUrl, no cropped image reference, the
decoded dimensions defaulted through the or-operator to 500, and no
option selections yet. -/
def createdConfiguration (freshId fileUrl : String) (w h : Option Nat) :
    Configuration :=
  { id := freshId
    imageUrl := fileUrl
    croppedImageUrl := none
    width := jsOrNat w 500
    height := jsOrNat h 500
    color := none
    model := none
    material := none
    finish := none }

/-- Lookup of a configuration record by id (Prisma findUnique). -/
def findConfiguration : List Configuration → String → Option Configuration
  | [], _ => none
  | c :: rest, i => if c.id = i then some c else findConfiguration rest i

/-- Prisma update on the configuration with the given id, setting only
croppedImageUrl to the given URL. -/
def updateCroppedImage : List Configuration → String → String → List Configuration
  | [], _, _ => []
  | c :: rest, i, url =>
      if c.id = i then { c with croppedImageUrl := some url } :: rest
      else c :: updateCroppedImage rest i url

/-- Translated from onUploadComplete: without a configId the create
branch inserts a fresh record and returns its id; with a configId the
update branch attaches the uploaded URL as croppedImageUrl to the record
with that id and returns that id; a missing record makes the Prisma
update throw, modelled as no returned id. -/
def onUploadComplete (freshId : String) (configId : Option String)
    (fileUrl : String) (w h : Option Nat) (store : List Configuration) :
    List Configuration × Option String :=
  match configId with
  | none => (createdConfiguration freshId fileUrl w h :: store, some freshId)
  | some cid =>
      match findConfiguration store cid with
      | none => (store, none)
      | some _ => (updateCroppedImage store cid fileUrl, some cid)

/-- Lookup in a store that holds the target record after a prefix of
records with other ids finds exactly that record. -/
theorem findConfiguration_append (pre suf : List Configuration)
    (c : Configuration) (cid : String) (hc : c.id = cid)
    (hpre : ∀ x ∈ pre, x.id ≠ cid) :
    findConfiguration (pre ++ c :: suf) cid = some c := by
  induction pre with
  | nil => simp [findConfiguration, hc]
  | cons a t ih =>
    have ha : a.id ≠ cid := hpre a (List.mem_cons_self _ _)
    simp only [List.cons_append, findConfiguration, if_neg ha]
    exact ih fun x hx => hpre x (List.mem_cons_of_mem _ hx)

/-- Update in a store that holds the target record after a prefix of
records with other ids rewrites exactly that record and only its
croppedImageUrl field. -/
theorem updateCroppedImage_append (pre suf : List Configuration)
    (c : Configuration) (cid url : String) (hc : c.id = cid)
    (hpre : ∀ x ∈ pre, x.id ≠ cid) :
    updateCroppedImage (pre ++ c :: suf) cid url
      = pre ++ { c with croppedImageUrl := some url } :: suf := by
  induction pre with
  | nil => simp [updateCroppedImage, hc]
  | cons a t ih =>
    have ha : a.id ≠ cid := hpre a (List.mem_cons_self _ _)
    simp only [List.cons_append, updateCroppedImage, if_neg ha, List.cons.injEq,
      true_and]
    exact ih fun x hx => hpre x (List.mem_cons_of_mem _ hx)

/-- C7: a first upload creates a record carrying the uploaded URL as
imageUrl and no cropped reference and returns the fresh id; an upload
accompanied by a configuration id overwrites only the croppedImageUrl of
the record with that id, leaves every other field and every other record
unchanged, and returns that id. -/
theorem upload_complete_spec (freshId fileUrl cid : String) (w h : Option Nat)
    (store pre suf : List Configuration) (c : Configuration)
    (hstore : store = pre ++ c :: suf) (hc : c.id = cid)
    (hpre : ∀ x ∈ pre, x.id ≠ cid) :
    onUploadComplete freshId none fileUrl w h store
      = (createdConfiguration freshId fileUrl w h :: store, some freshId)
    ∧ (createdConfiguration freshId fileUrl w h).imageUrl = fileUrl
    ∧ (createdConfiguration freshId fileUrl w h).croppedImageUrl = none
    ∧ onUploadComplete freshId (some cid) fileUrl w h store
      = (pre ++ { c with croppedImageUrl := some fileUrl } :: suf, some cid) := by
  subst hstore
  refine ⟨rfl, rfl, rfl, ?_⟩
  simp only [onUploadComplete, findConfiguration_append pre suf c cid hc hpre,
    updateCroppedImage_append pre suf c cid fileUrl hc hpre]

/-- First concrete record of the witness store. -/
def cfgA : Configuration :=
  { id := "a", imageUrl := "u1", croppedImageUrl := none, width := 10,
    height := 20, color := none, model := none, material := none,
    finish := none }

/-- Second concrete record of the witness store, already holding an older
cropped reference and a color selection. -/
def cfgB : Configuration :=
  { id := "b", imageUrl := "u2", croppedImageUrl := some "old", width := 30,
    height := 40, color := some "black", model := none, material := none,
    finish := none }

/-- C7 witness: a concrete create and a concrete update on a two-record
store, the second record already holding an older cropped reference. -/
theorem upload_complete_spec_witness :
    [cfgA, cfgB] = [cfgA] ++ cfgB :: []
    ∧ cfgB.id = "b"
    ∧ (∀ x ∈ [cfgA], x.id ≠ "b")
    ∧ onUploadComplete "f" (some "b") "url" none none [cfgA, cfgB]
      = ([cfgA, { cfgB with croppedImageUrl := some "url" }], some "b") := by
  refine ⟨rfl, rfl, by decide, ?_⟩
  exact (upload_complete_spec "f" "url" "b" none none [cfgA, cfgB] [cfgA] []
    cfgB rfl rfl (by decide)).2.2.2

/-- C9: the create branch prepends the fresh record; a missing decoded
width or height defaults to 500, and positive decoded dimensions are
stored unchanged. -/
theorem upload_create_dimensions (freshId fileUrl : String)
    (store : List Configuration) (w h : Nat) (ow oh : Option Nat)
    (hw : 0 < w) (hh : 0 < h) :
    (onUploadComplete freshId none fileUrl ow oh store).1
      = createdConfiguration freshId fileUrl ow oh :: store
    ∧ (onUploadComplete freshId none fileUrl ow oh store).2 = some freshId
    ∧ (createdConfiguration freshId fileUrl none oh).width = 500
    ∧ (createdConfiguration freshId fileUrl ow none).height = 500
    ∧ (createdConfiguration freshId fileUrl (some w) (some h)).width = w
    ∧ (createdConfiguration freshId fileUrl (some w) (some h)).height = h := by
  refine ⟨rfl, rfl, rfl, rfl, ?_, ?_⟩ <;>
    simp [createdConfiguration, jsOrNat, Nat.pos_iff_ne_zero.mp hw,
      Nat.pos_iff_ne_zero.mp hh]

/-- C9 witness: a concrete create with decoded dimensions 640 by 480. -/
theorem upload_create_dimensions_witness :
    0 < 640 ∧ 0 < 480
    ∧ ((onUploadComplete "f" none "url" (some 640) (some 480) []).1
        = createdConfiguration "f" "url" (some 640) (some 480) :: []
      ∧ (onUploadComplete "f" none "url" (some 640) (some 480) []).2 = some "f"
      ∧ (createdConfiguration "f" "url" none (some 480)).width = 500
      ∧ (createdConfiguration "f" "url" (some 640) none).height = 500
      ∧ (createdConfiguration "f" "url" (some 640) (some 480)).width = 640
      ∧ (createdConfiguration "f" "url" (some 640) (some 480)).height = 480) :=
  ⟨by decide, by decide,
    upload_create_dimensions "f" "url" [] 640 480 (some 640) (some 480)
      (by decide) (by decide)⟩

/-! ## Base64 decoding in base64ToBlob

The function base64ToBlob (DesignConfigurator.tsx 200-212) decodes a
base64 string with the browser atob, reads the character code of every
character of the resulting binary string, packs the codes into a
Uint8Array and wraps it in a Blob carrying the given mime type. The atob
builtin and the standard base64 encoding are modelled below on byte lists;
character codes of the binary string are exactly its bytes, and the
Uint8Array conversion reduces every element modulo 256. -/

/-- The standard base64 alphabet, index 0 to 63. -/
def b64Alphabet : List Char :=
  "ABCDEFGHIJKLMNOPQRSTUVWXYZabcdefghijklmnopqrstuvwxyz0123456789+/".toList

/-- Character of the base64 alphabet at the given sextet value. -/
def b64Char (n : Nat) : Char := b64Alphabet.getD n '='

/-- Position of a character in the base64 alphabet (64 when absent). -/
def b64Index (c : Char) : Nat := b64Alphabet.indexOf c

/-- Standard base64 encoding of a byte list, three bytes to four
characters, with trailing padding for one or two leftover bytes. This is
the reference encoding that canvas.toDataURL uses for its payload. -/
def b64Encode : List Nat → List Char
  | [] => []
  | [a] => [b64Char (a / 4), b64Char (a % 4 * 16), '=', '=']
  | [a, b] => [b64Char (a / 4), b64Char (a % 4 * 16 + b / 16),
      b64Char (b % 16 * 4), '=']
  | a :: b :: c :: rest =>
      b64Char (a / 4) :: b64Char (a % 4 * 16 + b / 16) ::
      b64Char (b % 16 * 4 + c / 64) :: b64Char (c % 64) :: b64Encode rest

/-- Models the browser atob on a valid base64 string, returning the
character codes of the binary output string: each complete group of four
characters yields three bytes, a group padded with one or two padding
characters yields two bytes or one. Inputs that valid encodings never
produce (a length not divisible by four) make atob throw and are mapped
to the empty list. -/
def atobBytes : List Char → List Nat
  | c1 :: c2 :: c3 :: c4 :: rest =>
      if c3 = '=' then [b64Index c1 * 4 + b64Index c2 / 16]
      else if c4 = '=' then
        [b64Index c1 * 4 + b64Index c2 / 16,
          b64Index c2 % 16 * 16 + b64Index c3 / 4]
      else
        (b64Index c1 * 4 + b64Index c2 / 16) ::
        (b64Index c2 % 16 * 16 + b64Index c3 / 4) ::
        (b64Index c3 % 4 * 64 + b64Index c4) :: atobBytes rest
  | _ => []

/-- A Blob value: its byte content and its mime type. -/
structure Blob where
  bytes : List Nat
  type : String
deriving DecidableEq

/-- Translated from base64ToBlob (DesignConfigurator.tsx 200-212): decode
with atob, take the character code of every character, pack the codes
into a Uint8Array (reduction modulo 256) and build a Blob with the given
mime type. -/
def base64ToBlob (base64 : List Char) (mimeType : String) : Blob :=
  { bytes := (atobBytes base64).map (fun b => b % 256), type := mimeType }

/-- Alphabet lookup inverts the alphabet character of every sextet. -/
theorem b64Index_b64Char : ∀ n < 64, b64Index (b64Char n) = n := by decide

/-- Alphabet characters are never the padding character. -/
theorem b64Char_ne_pad : ∀ n < 64, b64Char n ≠ '=' := by decide

/-- Decoding inverts the base64 encoding of every byte list. -/
theorem atobBytes_b64Encode :
    ∀ (l : List Nat), (∀ x ∈ l, x < 256) → atobBytes (b64Encode l) = l
  | [], _ => rfl
  | [a], h => by
    have ha : a < 256 := h a (List.mem_singleton_self a)
    simp only [b64Encode, atobBytes, if_pos rfl]
    rw [b64Index_b64Char (a / 4) (by omega),
      b64Index_b64Char (a % 4 * 16) (by omega)]
    have h1 : a / 4 * 4 + a % 4 * 16 / 16 = a := by omega
    rw [h1]
    simp
  | [a, b], h => by
    have ha : a < 256 := h a (by simp)
    have hb : b < 256 := h b (by simp)
    simp only [b64Encode, atobBytes,
      if_neg (b64Char_ne_pad (b % 16 * 4) (by omega)), if_pos rfl]
    rw [b64Index_b64Char (a / 4) (by omega),
      b64Index_b64Char (a % 4 * 16 + b / 16) (by omega),
      b64Index_b64Char (b % 16 * 4) (by omega)]
    have h1 : a / 4 * 4 + (a % 4 * 16 + b / 16) / 16 = a := by omega
    have h2 : (a % 4 * 16 + b / 16) % 16 * 16 + b % 16 * 4 / 4 = b := by omega
    rw [h1, h2]
    simp
  | a :: b :: c :: rest, h => by
    have ha : a < 256 := h a (by simp)
    have hb : b < 256 := h b (by simp)
    have hc : c < 256 := h c (by simp)
    have ih := atobBytes_b64Encode rest fun x hx => h x (by simp [hx])
    simp only [b64Encode, atobBytes,
      if_neg (b64Char_ne_pad (b % 16 * 4 + c / 64) (by omega)),
      if_neg (b64Char_ne_pad (c % 64) (by omega))]
    rw [b64Index_b64Char (a / 4) (by omega),
      b64Index_b64Char (a % 4 * 16 + b / 16) (by omega),
      b64Index_b64Char (b % 16 * 4 + c / 64) (by omega),
      b64Index_b64Char (c % 64) (by omega), ih]
    have h1 : a / 4 * 4 + (a % 4 * 16 + b / 16) / 16 = a := by omega
    have h2 : (a % 4 * 16 + b / 16) % 16 * 16 + (b % 16 * 4 + c / 64) / 4 = b := by
      omega
    have h3 : (b % 16 * 4 + c / 64) % 4 * 64 + c % 64 = c := by omega
    rw [h1, h2, h3]

/-- Reduction modulo 256 is the identity on lists of bytes. -/
theorem map_mod256_of_bytes (l : List Nat) (h : ∀ x ∈ l, x < 256) :
    l.map (fun b => b % 256) = l := by
  induction l with
  | nil => rfl
  | cons a t ih =>
    simp only [List.mem_cons, forall_eq_or_imp] at h
    simp only [List.map_cons, Nat.mod_eq_of_lt h.1, ih h.2]

/-- C8: on the standard base64 encoding of any byte sequence,
base64ToBlob returns a Blob holding exactly that byte sequence, in order,
with the given mime type: it is a left inverse of base64 encoding. -/
theorem base64ToBlob_left_inverse (l : List Nat) (m : String)
    (h : ∀ x ∈ l, x < 256) :
    base64ToBlob (b64Encode l) m = { bytes := l, type := m } := by
  simp only [base64ToBlob, atobBytes_b64Encode l h, map_mod256_of_bytes l h]

/-- C8 witness: the bytes of the ASCII text Hi round-trip through the
encoding and base64ToBlob with the image/png mime type. -/
theorem base64ToBlob_left_inverse_witness :
    (∀ x ∈ [72, 105, 33], x < 256)
    ∧ base64ToBlob (b64Encode [72, 105, 33]) "image/png"
      = { bytes := [72, 105, 33], type := "image/png" } :=
  ⟨by decide, base64ToBlob_left_inverse [72, 105, 33] "image/png" (by decide)⟩

/-! ## Price computation: preview page and checkout session

The total shown on the preview page (DesignPreview, upload/page.tsx
309-316) and the price computed by createCheckoutSession
(configure/preview/actions.ts 66-112) both start from the base price and
add the textured finish surcharge and the polycarbonate material
surcharge; createCheckoutSession then passes that price unchanged as the
unit amount of the Stripe product it creates. The price constants live in
config/products and are quantified over, so the theorems hold for
whatever values that module exports. -/

/-- Option fields of a stored configuration that the price depends on:
finish and material are nullable strings in the record. -/
structure CaseOptions where
  finish : Option String
  material : Option String
deriving DecidableEq

/-- Translated from DesignPreview (upload/page.tsx 309-316): start from
the base price, add the polycarbonate surcharge when the material is
polycarbonate, then the textured surcharge when the finish is textured. -/
def previewTotalPrice (basePrice texturedPrice polycarbonatePrice : ℤ)
    (cfg : CaseOptions) : ℤ :=
  let p1 := basePrice
  let p2 := if cfg.material = some "polycarbonate" then p1 + polycarbonatePrice
    else p1
  if cfg.finish = some "textured" then p2 + texturedPrice else p2

/-- Translated from createCheckoutSession (preview/actions.ts 66-74):
start from the base price, add the textured surcharge when the finish is
textured, then the polycarbonate surcharge when the material is
polycarbonate. -/
def checkoutSessionPrice (basePrice texturedPrice polycarbonatePrice : ℤ)
    (cfg : CaseOptions) : ℤ :=
  let p1 := basePrice
  if cfg.finish = some "textured" then
    if cfg.material = some "polycarbonate" then
      p1 + texturedPrice + polycarbonatePrice
    else p1 + texturedPrice
  else
    if cfg.material = some "polycarbonate" then p1 + polycarbonatePrice
    else p1

/-- Translated from the Stripe product creation (preview/actions.ts
105-112): the unit amount of the created product is exactly the computed
price. -/
def stripeUnitAmount (basePrice texturedPrice polycarbonatePrice : ℤ)
    (cfg : CaseOptions) : ℤ :=
  checkoutSessionPrice basePrice texturedPrice polycarbonatePrice cfg

/-- C10: for every configuration and every value of the price constants,
the order total displayed on the preview page equals the price computed
by createCheckoutSession, which is also the unit amount of the created
Stripe product. -/
theorem preview_total_eq_checkout_price
    (basePrice texturedPrice polycarbonatePrice : ℤ) (cfg : CaseOptions) :
    previewTotalPrice basePrice texturedPrice polycarbonatePrice cfg
      = checkoutSessionPrice basePrice texturedPrice polycarbonatePrice cfg
    ∧ checkoutSessionPrice basePrice texturedPrice polycarbonatePrice cfg
      = stripeUnitAmount basePrice texturedPrice polycarbonatePrice cfg := by
  refine ⟨?_, rfl⟩
  simp only [previewTotalPrice, checkoutSessionPrice]
  by_cases hf : cfg.finish = some "textured" <;>
    by_cases hm : cfg.material = some "polycarbonate" <;>
      simp [hf, hm] <;> ring

/-- C6 witness for the amended statement: a 2000 by 4000 source, one
whole-pixel aspect-locked resize to 400 by 800 followed by a drag. -/
theorem aspect_locked_whole_resizes_witness :
    (0 : ℚ) < 2000 ∧ (0 : ℚ) < 4000
    ∧ (∀ e ∈ [PlacementEvent.resize 400 800 10 20, PlacementEvent.drag 5 6],
        eventLockedWhole ((2000 : ℚ) / 4000) e)
    ∧ (aspectOf (applyEvents (initialState 2000 4000)
          [PlacementEvent.resize 400 800 10 20, PlacementEvent.drag 5 6])
        = 2000 / 4000
      ∧ ∀ (s : PlacementState) (x y : ℚ),
          (applyEvent s (PlacementEvent.drag x y)).dims = s.dims) := by
  have hes : ∀ e ∈ [PlacementEvent.resize 400 800 10 20,
      PlacementEvent.drag 5 6], eventLockedWhole ((2000 : ℚ) / 4000) e := by
    intro e he
    simp only [List.mem_cons, List.not_mem_nil, or_false] at he
    rcases he with rfl | rfl
    · exact ⟨by norm_num, by norm_num, by norm_num, by norm_num⟩
    · trivial
  exact ⟨by norm_num, by norm_num, hes,
    aspect_locked_whole_resizes 2000 4000 (by norm_num) (by norm_num) _ hes⟩
